import Mathlib

/-!
Verification of the forkontext caching-fetch policy (src/forkontext.py)
against its natural-language specification.

The embedding models:
- the `entry` table rows (`Entry`), with the pickled `response` column as an
  optional captured HTTP response and `expiry` as an optional timestamp
  (a freshly constructed `Entry(url=url)` has NULL expiry and NULL response);
- the `fetch` coordinator, with the store as a list of rows, time as a
  natural number of seconds, and the environment (whether the store read
  raises, what the live HTTP GET yields, whether commit raises) passed in
  explicitly;
- the `maybe_proxy` URL rewriter, including the anchored prefix match of
  TWITTER_RE (with `\w` modelled over ASCII word characters) and
  `urllib.parse.urlencode`'s quote-plus encoding;
- the `fetch_context` request handler down to the fetch-policy boundary
  (microformat parsing and JSON/JSONP framing are external collaborators
  per the spec and are abstracted as carrying the successful response).
-/

/-- A captured HTTP response: the fields of a `requests` response that the
program reads (`status_code`, `text`). -/
structure Response where
  status_code : Nat
  text : String
deriving DecidableEq

/-- A row of the `entry` table. `Entry(url=url)` is `⟨url, none, none⟩`:
both the expiry and the pickled response columns start NULL. -/
structure Entry where
  url : String
  expiry : Option Nat
  response : Option Response
deriving DecidableEq

/-- Outcome of the live `req_session.get(url)` call: either a response
object or a raised transport-level exception. -/
inductive GetOutcome where
  | resp (r : Response)
  | err
deriving DecidableEq

/-- The exceptions that can escape `fetch`: a failure reading the store, a
transport fault from the live GET, a failure committing, or the Python
TypeError from comparing `now >= None` on an entry with NULL expiry. -/
inductive Exn where
  | readErr
  | transportErr
  | commitErr
  | pyTypeErr
deriving DecidableEq

/-- The environment of one `fetch` call: whether the store read succeeds,
what the live HTTP GET yields, and whether `session.commit()` succeeds. -/
structure Env where
  readOk : Bool
  getResult : GetOutcome
  commitOk : Bool
deriving DecidableEq

/-- Result of one `fetch` call: the returned response (or raised
exception), the store after the call, and how many store reads and live
HTTP GETs were performed. -/
structure FetchResult where
  result : Except Exn (Option Response)
  store : List Entry
  reads : Nat
  gets : Nat

/-- Python truthiness of a pickled `cached.response` value:
`not cached.response` is true when the column is NULL, or when the stored
`requests` response is falsy, i.e. its `ok` property is false because the
status code lies in [400, 600). -/
def responseFalsy : Option Response → Bool
  | none => true
  | some r => decide (400 ≤ r.status_code ∧ r.status_code < 600)

/-- Line 89: `if not cached.response or cached.response.status_code // 100 != 2`.
The `or` short-circuits, so `.status_code` is only read when the column is
not NULL. -/
def shouldOverwrite : Option Response → Bool
  | none => true
  | some old => responseFalsy (some old) || decide (old.status_code / 100 ≠ 2)

/-- Lines 85-94: given the live response, update the (in-memory) entry.
A non-2xx response only overwrites `cached.response` when there is no prior
good response, and sets a 1-hour expiry; a 2xx response always overwrites
and sets a 12-hour expiry. Times are in seconds: timedelta(hours=1) = 3600,
timedelta(hours=12) = 43200. -/
def applyPolicy (now : Nat) (cached : Entry) (resp : Response) : Entry :=
  if resp.status_code / 100 ≠ 2 then
    { cached with
      response := if shouldOverwrite cached.response then some resp
                  else cached.response,
      expiry := some (now + 3600) }
  else
    { cached with response := some resp, expiry := some (now + 43200) }

/-- `session.query(Entry).filter_by(url=url).first()`: the first stored row
whose url column equals `url`, if any. -/
def storeLookup (store : List Entry) (url : String) : Option Entry :=
  store.find? fun e => e.url == url

/-- Committing an update to an existing row: replace the first row whose
url matches (the row the ORM identity maps to) with the mutated entry. -/
def storeReplace : List Entry → String → Entry → List Entry
  | [], _, _ => []
  | e :: rest, url, e' =>
      if e.url == url then e' :: rest else e :: storeReplace rest url e'

/-- Lines 84-96 for a stale or absent entry: perform the live GET, apply
the policy to the in-memory entry, and commit (insert if the entry is new,
update otherwise). A transport fault or a commit failure raises and the
rollback leaves the store unchanged. -/
def refetchAndCommit (env : Env) (store : List Entry) (now : Nat)
    (url : String) (cached : Entry) (isNew : Bool) : FetchResult :=
  match env.getResult with
  | .err => ⟨.error .transportErr, store, 1, 1⟩
  | .resp resp =>
    let cached' := applyPolicy now cached resp
    if env.commitOk then
      ⟨.ok cached'.response,
       if isNew then store ++ [cached'] else storeReplace store url cached',
       1, 1⟩
    else ⟨.error .commitErr, store, 1, 1⟩

/-- Lines 71-102, `fetch(url)`: look up the cached entry; if absent or
stale (`not cached or now >= cached.expiry`), create/refetch it under the
TTL and non-regression policy, commit, and return `cached.response`; on a
fresh hit return the stored response with no GET and no write. Any raised
exception rolls the transaction back (store unchanged) and re-raises. -/
def fetch (env : Env) (store : List Entry) (now : Nat) (url : String) :
    FetchResult :=
  if env.readOk then
    match storeLookup store url with
    | some cached =>
      match cached.expiry with
      | none => ⟨.error .pyTypeErr, store, 1, 0⟩
      | some exp =>
        if now ≥ exp then
          refetchAndCommit env store now url cached false
        else
          if env.commitOk then ⟨.ok cached.response, store, 1, 0⟩
          else ⟨.error .commitErr, store, 1, 0⟩
    | none =>
      refetchAndCommit env store now url ⟨url, none, none⟩ true
  else ⟨.error .readErr, store, 1, 0⟩

/-- The configuration keys `maybe_proxy` consults: a key is `some` when
present in `app.config` (the source checks membership, not truthiness). -/
structure Config where
  twitter_au_key : Option String
  twitter_au_secret : Option String
deriving DecidableEq

/-- Python regex `\w`, modelled over ASCII word characters. -/
def isWordChar (c : Char) : Bool :=
  c.isAlphanum || c == '_'

/-- Match a literal piece of the pattern against the head of the text and
return the remaining text. -/
def dropLit : List Char → List Char → Option (List Char)
  | [], s => some s
  | _, [] => none
  | l :: lit, c :: s => if c = l then dropLit lit s else none

/-- `TWITTER_RE.match(url)` for
`https?://(?:www\.|mobile\.)?twitter\.com/(\w+)/status(?:es)?/(\w+)`:
an anchored prefix match returning group 2 (the status id) on success.
The alternatives are mutually exclusive at each step, so committed choice
coincides with the regex engine's backtracking. -/
def twitterMatch (url : String) : Option String := do
  let s ← dropLit "https://".data url.data <|> dropLit "http://".data url.data
  let s := (dropLit "www.".data s <|> dropLit "mobile.".data s).getD s
  let s ← dropLit "twitter.com/".data s
  let g1 := s.takeWhile isWordChar
  if g1.isEmpty then none else
  let s := s.dropWhile isWordChar
  let s ← dropLit "/status".data s
  let s ← dropLit "es/".data s <|> dropLit "/".data s
  let g2 := s.takeWhile isWordChar
  if g2.isEmpty then none else some (String.mk g2)

/-- UTF-8 encoding of one character, as a list of byte values. -/
def utf8Bytes (c : Char) : List Nat :=
  let n := c.toNat
  if n < 128 then [n]
  else if n < 2048 then [192 + n / 64, 128 + n % 64]
  else if n < 65536 then [224 + n / 4096, 128 + n / 64 % 64, 128 + n % 64]
  else [240 + n / 262144, 128 + n / 4096 % 64, 128 + n / 64 % 64, 128 + n % 64]

/-- Uppercase hexadecimal digit, as used by `urllib.parse.quote`. -/
def hexDigit (n : Nat) : Char :=
  if n < 10 then Char.ofNat (48 + n) else Char.ofNat (55 + n)

/-- Percent-encode one byte as `%XX`. -/
def percentByte (b : Nat) : String :=
  String.mk ['%', hexDigit (b / 16), hexDigit (b % 16)]

/-- `urllib.parse.quote_plus` on one character: always-safe characters
(ASCII letters, digits, `_.-~`) pass through, space becomes `+`, everything
else is percent-encoded bytewise. -/
def quotePlusChar (c : Char) : String :=
  if c.isAlphanum || c == '_' || c == '.' || c == '-' || c == '~' then
    String.singleton c
  else if c == ' ' then "+"
  else String.join ((utf8Bytes c).map percentByte)

/-- `urllib.parse.quote_plus` on a string. -/
def quotePlus (s : String) : String :=
  String.join (s.data.map quotePlusChar)

/-- `urllib.parse.urlencode` on a list of key-value pairs. -/
def urlencode (params : List (String × String)) : String :=
  String.intercalate "&" <|
    params.map fun p => quotePlus p.1 ++ "=" ++ quotePlus p.2

/-- Lines 105-120, `maybe_proxy(url)`: when both proxy credentials are
configured and the URL matches the twitter status-permalink pattern,
rewrite it into the activitystreams proxy endpoint carrying the
credentials; otherwise return the URL unchanged. -/
def maybe_proxy (cfg : Config) (url : String) : String :=
  match cfg.twitter_au_key, cfg.twitter_au_secret with
  | some key, some secret =>
    match twitterMatch url with
    | some g2 =>
        "https://twitter-activitystreams.appspot.com/@me/@all/@app/"
          ++ g2 ++ "?"
          ++ urlencode [("format", "html"),
                        ("access_token_key", key),
                        ("access_token_secret", secret)]
    | none => url
  | _, _ => url

/-- What the route handler produces, up to the fetch-policy boundary.
Microformat parsing and JSON/JSONP framing are external collaborators
(spec §4.4), so a successful outcome just carries the response handed to
the parser. `attrErr` is the AttributeError Python would raise reading
`.status_code` off a NULL stored response. -/
inductive CtxResult where
  | missing_url
  | raised (e : Exn)
  | attrErr
  | fetch_failed (code : Nat) (text : String)
  | success (r : Response)
deriving DecidableEq

/-- Result of one `fetch_context` request: the outcome, the store after
the request, and how many store reads and live HTTP GETs occurred. -/
structure CtxOutcome where
  result : CtxResult
  store : List Entry
  reads : Nat
  gets : Nat

/-- Lines 123-162, `fetch_context()`: a missing or empty (falsy) `url`
query parameter yields the `missing_url` 400 response before any store or
transport interaction; otherwise the URL is passed through `maybe_proxy`,
fetched, and a non-2xx response becomes a `fetch_failed` payload while a
2xx response is handed on to the parser. -/
def fetch_context (env : Env) (cfg : Config) (store : List Entry)
    (now : Nat) (urlArg : Option String) : CtxOutcome :=
  match urlArg with
  | none => ⟨.missing_url, store, 0, 0⟩
  | some u =>
    if u.isEmpty then ⟨.missing_url, store, 0, 0⟩
    else
      let url := maybe_proxy cfg u
      let fr := fetch env store now url
      match fr.result with
      | .error e => ⟨.raised e, fr.store, fr.reads, fr.gets⟩
      | .ok none => ⟨.attrErr, fr.store, fr.reads, fr.gets⟩
      | .ok (some resp) =>
        if resp.status_code / 100 ≠ 2 then
          ⟨.fetch_failed resp.status_code resp.text, fr.store, fr.reads,
           fr.gets⟩
        else ⟨.success resp, fr.store, fr.reads, fr.gets⟩

/-! ### Helper lemmas: branch characterizations of `fetch` -/

theorem fetch_of_read_fail (env : Env) (store : List Entry) (now : Nat)
    (url : String) (h : env.readOk = false) :
    fetch env store now url = ⟨.error .readErr, store, 1, 0⟩ := by
  unfold fetch
  rw [h]
  simp

theorem fetch_of_null_expiry (env : Env) (store : List Entry) (now : Nat)
    (url : String) (c : Entry) (hread : env.readOk = true)
    (hfind : storeLookup store url = some c) (hexp : c.expiry = none) :
    fetch env store now url = ⟨.error .pyTypeErr, store, 1, 0⟩ := by
  unfold fetch
  rw [hread, hfind]
  simp [hexp]

theorem fetch_of_fresh (env : Env) (store : List Entry) (now : Nat)
    (url : String) (c : Entry) (exp : Nat) (hread : env.readOk = true)
    (hfind : storeLookup store url = some c) (hexp : c.expiry = some exp)
    (hfresh : now < exp) :
    fetch env store now url =
      if env.commitOk then ⟨.ok c.response, store, 1, 0⟩
      else ⟨.error .commitErr, store, 1, 0⟩ := by
  unfold fetch
  rw [hread, hfind]
  simp [hexp, Nat.not_le.mpr hfresh]

theorem fetch_of_stale (env : Env) (store : List Entry) (now : Nat)
    (url : String) (c : Entry) (exp : Nat) (hread : env.readOk = true)
    (hfind : storeLookup store url = some c) (hexp : c.expiry = some exp)
    (hstale : exp ≤ now) :
    fetch env store now url = refetchAndCommit env store now url c false := by
  unfold fetch
  rw [hread, hfind]
  simp [hexp, hstale]

theorem fetch_of_absent (env : Env) (store : List Entry) (now : Nat)
    (url : String) (hread : env.readOk = true)
    (hfind : storeLookup store url = none) :
    fetch env store now url =
      refetchAndCommit env store now url ⟨url, none, none⟩ true := by
  unfold fetch
  rw [hread, hfind]
  simp

theorem refetch_of_err (env : Env) (store : List Entry) (now : Nat)
    (url : String) (c : Entry) (isNew : Bool) (h : env.getResult = .err) :
    refetchAndCommit env store now url c isNew =
      ⟨.error .transportErr, store, 1, 1⟩ := by
  unfold refetchAndCommit
  rw [h]

theorem refetch_of_resp (env : Env) (store : List Entry) (now : Nat)
    (url : String) (c : Entry) (isNew : Bool) (resp : Response)
    (h : env.getResult = .resp resp) :
    refetchAndCommit env store now url c isNew =
      if env.commitOk then
        ⟨.ok (applyPolicy now c resp).response,
         if isNew then store ++ [applyPolicy now c resp]
         else storeReplace store url (applyPolicy now c resp), 1, 1⟩
      else ⟨.error .commitErr, store, 1, 1⟩ := by
  unfold refetchAndCommit
  rw [h]

/-! ### Helper lemmas: the policy and the store -/

theorem applyPolicy_url (now : Nat) (c : Entry) (resp : Response) :
    (applyPolicy now c resp).url = c.url := by
  unfold applyPolicy
  split <;> rfl

theorem applyPolicy_expiry (now : Nat) (c : Entry) (resp : Response) :
    (applyPolicy now c resp).expiry =
      some (if resp.status_code / 100 = 2 then now + 43200 else now + 3600) := by
  unfold applyPolicy
  by_cases h : resp.status_code / 100 = 2
  · rw [if_neg (by omega), if_pos h]
  · rw [if_pos h, if_neg h]

theorem shouldOverwrite_of_good (r : Response)
    (hgood : r.status_code / 100 = 2) :
    shouldOverwrite (some r) = false := by
  unfold shouldOverwrite responseFalsy
  have h1 : ¬(400 ≤ r.status_code ∧ r.status_code < 600) := by omega
  have h2 : ¬r.status_code / 100 ≠ 2 := by omega
  simp [h1, h2]

theorem applyPolicy_keeps_good (now : Nat) (c : Entry) (r resp : Response)
    (hresp : c.response = some r) (hgood : r.status_code / 100 = 2)
    (hfail : resp.status_code / 100 ≠ 2) :
    (applyPolicy now c resp).response = some r := by
  unfold applyPolicy
  rw [if_pos hfail]
  simp [hresp, shouldOverwrite_of_good r hgood]

theorem storeLookup_url (store : List Entry) (url : String) (c : Entry)
    (h : storeLookup store url = some c) : c.url = url := by
  unfold storeLookup at h
  simpa using List.find?_some h

theorem storeLookup_storeReplace (store : List Entry) (url : String)
    (e' : Entry) (hurl : e'.url = url)
    (hsome : (storeLookup store url).isSome) :
    storeLookup (storeReplace store url e') url = some e' := by
  unfold storeLookup at *
  induction store with
  | nil => simp [List.find?] at hsome
  | cons a rest ih =>
    by_cases ha : a.url = url
    · have ha2 : (a.url == url) = true := by simpa using ha
      have he2 : (e'.url == url) = true := by simpa using hurl
      simp [storeReplace, ha2, List.find?, he2]
    · have ha2 : (a.url == url) = false := by simpa using ha
      simp only [storeReplace, ha2, Bool.false_eq_true, if_false]
      simp only [List.find?, ha2] at hsome ⊢
      exact ih hsome

theorem storeLookup_append_of_none (store : List Entry) (url : String)
    (e' : Entry) (h : storeLookup store url = none) (he : e'.url = url) :
    storeLookup (store ++ [e']) url = some e' := by
  unfold storeLookup at *
  rw [List.find?_append, h]
  simp [List.find?, he]

/-! ### Claim theorems -/

/-- Claim C1 (non-regression of good responses): when the stored entry for
a URL holds a 2xx response, a fetch in which the live GET returns a
non-2xx status leaves the stored response field unchanged; and the policy
only overwrites a stored response with a failure response when no prior
response exists or the prior stored response is itself non-2xx. -/
theorem C1_non_regression (env : Env) (store : List Entry) (now : Nat)
    (url : String) (c : Entry) (r resp : Response)
    (hread : env.readOk = true)
    (hfind : storeLookup store url = some c)
    (hresp : c.response = some r)
    (hgood : r.status_code / 100 = 2)
    (hget : env.getResult = .resp resp)
    (hfail : resp.status_code / 100 ≠ 2) :
    (∃ c', storeLookup (fetch env store now url).store url = some c' ∧
        c'.response = some r) ∧
    (∀ (now2 : Nat) (c2 : Entry) (resp2 : Response),
        resp2.status_code / 100 ≠ 2 →
        (applyPolicy now2 c2 resp2).response ≠ c2.response →
        c2.response = none ∨
          ∃ old, c2.response = some old ∧ old.status_code / 100 ≠ 2) := by
  constructor
  · match hexp : c.expiry with
    | none =>
      rw [fetch_of_null_expiry env store now url c hread hfind hexp]
      exact ⟨c, hfind, hresp⟩
    | some exp =>
      by_cases hfresh : now < exp
      · rw [fetch_of_fresh env store now url c exp hread hfind hexp hfresh]
        by_cases hc : env.commitOk = true
        · rw [if_pos hc]; exact ⟨c, hfind, hresp⟩
        · rw [if_neg hc]; exact ⟨c, hfind, hresp⟩
      · have hstale : exp ≤ now := by omega
        rw [fetch_of_stale env store now url c exp hread hfind hexp hstale,
            refetch_of_resp env store now url c false resp hget]
        by_cases hc : env.commitOk = true
        · rw [if_pos hc]
          refine ⟨applyPolicy now c resp, ?_,
            applyPolicy_keeps_good now c r resp hresp hgood hfail⟩
          simp only [Bool.false_eq_true, if_false]
          exact storeLookup_storeReplace store url _
            ((applyPolicy_url now c resp).trans (storeLookup_url store url c hfind))
            (by rw [hfind]; rfl)
        · rw [if_neg hc]; exact ⟨c, hfind, hresp⟩
  · intro now2 c2 resp2 hfail2 hchanged
    match hr2 : c2.response with
    | none => exact Or.inl rfl
    | some old =>
      by_cases hold : old.status_code / 100 = 2
      · exact absurd
          ((applyPolicy_keeps_good now2 c2 old resp2 hr2 hold hfail2).trans hr2.symm)
          hchanged
      · exact Or.inr ⟨old, rfl, hold⟩

theorem C1_witness :
    (∃ c', storeLookup
        (fetch ⟨true, .resp ⟨503, "oops"⟩, true⟩
          [⟨"u", some 50, some ⟨200, "good"⟩⟩] 100 "u").store "u" = some c' ∧
        c'.response = some ⟨200, "good"⟩) ∧
    (∀ (now2 : Nat) (c2 : Entry) (resp2 : Response),
        resp2.status_code / 100 ≠ 2 →
        (applyPolicy now2 c2 resp2).response ≠ c2.response →
        c2.response = none ∨
          ∃ old, c2.response = some old ∧ old.status_code / 100 ≠ 2) :=
  C1_non_regression ⟨true, .resp ⟨503, "oops"⟩, true⟩
    [⟨"u", some 50, some ⟨200, "good"⟩⟩] 100 "u"
    ⟨"u", some 50, some ⟨200, "good"⟩⟩ ⟨200, "good"⟩ ⟨503, "oops"⟩
    rfl rfl rfl (by decide) rfl (by decide)

/-- Claim C2 (TTL correctness): in any fetch where the live GET is
performed and the transaction commits, the stored entry's expiry becomes
now + 12 hours when the live status is 2xx and now + 1 hour otherwise,
regardless of whether the response field was overwritten. -/
theorem C2_ttl (env : Env) (store : List Entry) (now : Nat) (url : String)
    (resp : Response)
    (hget : env.getResult = .resp resp)
    (hcommit : env.commitOk = true)
    (hgets : (fetch env store now url).gets = 1) :
    ∃ c', storeLookup (fetch env store now url).store url = some c' ∧
      c'.expiry = some (if resp.status_code / 100 = 2 then now + 43200
                        else now + 3600) := by
  by_cases hread : env.readOk = true
  case neg =>
    rw [fetch_of_read_fail env store now url (by simpa using hread)] at hgets
    simp at hgets
  case pos =>
  match hfind : storeLookup store url with
  | some c =>
    match hexp : c.expiry with
    | none =>
      rw [fetch_of_null_expiry env store now url c hread hfind hexp] at hgets
      simp at hgets
    | some exp =>
      by_cases hfresh : now < exp
      · rw [fetch_of_fresh env store now url c exp hread hfind hexp hfresh] at hgets
        split at hgets <;> simp at hgets
      · have hstale : exp ≤ now := by omega
        rw [fetch_of_stale env store now url c exp hread hfind hexp hstale,
            refetch_of_resp env store now url c false resp hget, if_pos hcommit]
        refine ⟨applyPolicy now c resp, ?_, applyPolicy_expiry now c resp⟩
        simp only [Bool.false_eq_true, if_false]
        exact storeLookup_storeReplace store url _
          ((applyPolicy_url now c resp).trans (storeLookup_url store url c hfind))
          (by rw [hfind]; rfl)
  | none =>
    rw [fetch_of_absent env store now url hread hfind,
        refetch_of_resp env store now url ⟨url, none, none⟩ true resp hget,
        if_pos hcommit]
    refine ⟨applyPolicy now ⟨url, none, none⟩ resp, ?_, applyPolicy_expiry _ _ _⟩
    simp only [if_pos rfl]
    exact storeLookup_append_of_none store url _ hfind
      ((applyPolicy_url _ _ _).trans rfl)

theorem C2_ttl_witness :
    ∃ c', storeLookup
        (fetch ⟨true, .resp ⟨200, "ok"⟩, true⟩ [] 5 "u").store "u" = some c' ∧
      c'.expiry = some (if (200 : Nat) / 100 = 2 then 5 + 43200
                        else 5 + 3600) :=
  C2_ttl ⟨true, .resp ⟨200, "ok"⟩, true⟩ [] 5 "u" ⟨200, "ok"⟩ rfl rfl rfl

/-- Claim C3 (fresh cache hit short-circuits the network): when the stored
entry's expiry is strictly in the future, `fetch` returns the stored
response with no live GET and no change to the store; and when the expiry
equals the current time the entry is treated as stale and re-fetched. -/
theorem C3_fresh_hit (env : Env) (store : List Entry) (now : Nat)
    (url : String) (c : Entry) (exp : Nat)
    (hread : env.readOk = true)
    (hfind : storeLookup store url = some c)
    (hexp : c.expiry = some exp) :
    (now < exp → env.commitOk = true →
        fetch env store now url = ⟨.ok c.response, store, 1, 0⟩) ∧
    (exp = now → (fetch env store now url).gets = 1) := by
  constructor
  · intro hfresh hcommit
    rw [fetch_of_fresh env store now url c exp hread hfind hexp hfresh,
        if_pos hcommit]
  · intro heq
    rw [fetch_of_stale env store now url c exp hread hfind hexp (le_of_eq heq)]
    cases hg : env.getResult with
    | err => rw [refetch_of_err env store now url c false hg]
    | resp r =>
      rw [refetch_of_resp env store now url c false r hg]
      split <;> rfl

theorem C3_witness :
    fetch ⟨true, .resp ⟨503, "y"⟩, true⟩ [⟨"u", some 10, some ⟨200, "x"⟩⟩]
        5 "u" =
      ⟨.ok (some ⟨200, "x"⟩), [⟨"u", some 10, some ⟨200, "x"⟩⟩], 1, 0⟩ ∧
    (fetch ⟨true, .resp ⟨503, "y"⟩, true⟩ [⟨"u", some 10, some ⟨200, "x"⟩⟩]
        10 "u").gets = 1 := by
  constructor
  · exact (C3_fresh_hit ⟨true, .resp ⟨503, "y"⟩, true⟩
      [⟨"u", some 10, some ⟨200, "x"⟩⟩] 5 "u" ⟨"u", some 10, some ⟨200, "x"⟩⟩
      10 rfl rfl rfl).1 (by omega) rfl
  · exact (C3_fresh_hit ⟨true, .resp ⟨503, "y"⟩, true⟩
      [⟨"u", some 10, some ⟨200, "x"⟩⟩] 10 "u" ⟨"u", some 10, some ⟨200, "x"⟩⟩
      10 rfl rfl rfl).2 rfl

theorem refetch_rollback (env : Env) (store : List Entry) (now : Nat)
    (url : String) (c : Entry) (isNew : Bool) :
    (∀ e, (refetchAndCommit env store now url c isNew).result = .error e →
        (refetchAndCommit env store now url c isNew).store = store) ∧
    (env.commitOk = false →
        ∃ e, (refetchAndCommit env store now url c isNew).result = .error e) ∧
    (env.getResult = .err →
        (refetchAndCommit env store now url c isNew).result =
          .error .transportErr) := by
  cases hg : env.getResult with
  | err =>
    rw [refetch_of_err env store now url c isNew hg]
    exact ⟨fun e _ => rfl, fun _ => ⟨.transportErr, rfl⟩, fun _ => rfl⟩
  | resp r =>
    rw [refetch_of_resp env store now url c isNew r hg]
    by_cases hc : env.commitOk = true
    · rw [if_pos hc]
      refine ⟨fun e he => absurd he (by simp), ?_, ?_⟩
      · intro h; rw [hc] at h; exact absurd h (by simp)
      · intro h; exact absurd h (by simp)
    · rw [if_neg hc]
      refine ⟨fun e _ => rfl, fun _ => ⟨.commitErr, rfl⟩, ?_⟩
      intro h; exact absurd h (by simp)

/-- Claim C4 (atomicity on failure): whenever `fetch` ends in a raised
exception — a failure reading the store, a transport fault during the live
GET, or a commit failure — the transaction is rolled back so the store is
unchanged, and the exception is re-raised to the caller (a read or commit
failure always surfaces as an error result, and a transport fault on a
performed GET surfaces as the transport error). -/
theorem C4_atomicity (env : Env) (store : List Entry) (now : Nat)
    (url : String) :
    (∀ e, (fetch env store now url).result = .error e →
        (fetch env store now url).store = store) ∧
    (env.readOk = false ∨ env.commitOk = false →
        ∃ e, (fetch env store now url).result = .error e) ∧
    ((fetch env store now url).gets = 1 → env.getResult = .err →
        (fetch env store now url).result = .error .transportErr) := by
  by_cases hread : env.readOk = true
  case neg =>
    have hb : env.readOk = false := by simpa using hread
    rw [fetch_of_read_fail env store now url hb]
    exact ⟨fun e _ => rfl, fun _ => ⟨.readErr, rfl⟩, fun h => by simp at h⟩
  case pos =>
  match hfind : storeLookup store url with
  | some c =>
    match hexp : c.expiry with
    | none =>
      rw [fetch_of_null_expiry env store now url c hread hfind hexp]
      exact ⟨fun e _ => rfl, fun _ => ⟨.pyTypeErr, rfl⟩, fun h => by simp at h⟩
    | some exp =>
      by_cases hfresh : now < exp
      · rw [fetch_of_fresh env store now url c exp hread hfind hexp hfresh]
        by_cases hc : env.commitOk = true
        · rw [if_pos hc]
          refine ⟨fun e he => absurd he (by simp), ?_, fun h => by simp at h⟩
          intro hor
          rcases hor with h | h
          · rw [hread] at h; exact absurd h (by simp)
          · rw [hc] at h; exact absurd h (by simp)
        · rw [if_neg hc]
          exact ⟨fun e _ => rfl, fun _ => ⟨.commitErr, rfl⟩,
            fun h => by simp at h⟩
      · have hstale : exp ≤ now := by omega
        rw [fetch_of_stale env store now url c exp hread hfind hexp hstale]
        refine ⟨(refetch_rollback env store now url c false).1, ?_, ?_⟩
        · intro hor
          rcases hor with h | h
          · rw [hread] at h; exact absurd h (by simp)
          · exact (refetch_rollback env store now url c false).2.1 h
        · intro _ hg
          exact (refetch_rollback env store now url c false).2.2 hg
  | none =>
    rw [fetch_of_absent env store now url hread hfind]
    refine ⟨(refetch_rollback env store now url ⟨url, none, none⟩ true).1,
      ?_, ?_⟩
    · intro hor
      rcases hor with h | h
      · rw [hread] at h; exact absurd h (by simp)
      · exact (refetch_rollback env store now url ⟨url, none, none⟩ true).2.1 h
    · intro _ hg
      exact (refetch_rollback env store now url ⟨url, none, none⟩ true).2.2 hg

theorem C4_witness :
    (fetch ⟨true, .resp ⟨200, "ok"⟩, false⟩
        [⟨"u", some 10, some ⟨200, "x"⟩⟩] 99 "u").store =
      [⟨"u", some 10, some ⟨200, "x"⟩⟩] ∧
    (∃ e, (fetch ⟨true, .resp ⟨200, "ok"⟩, false⟩
        [⟨"u", some 10, some ⟨200, "x"⟩⟩] 99 "u").result = .error e) := by
  constructor
  · exact (C4_atomicity ⟨true, .resp ⟨200, "ok"⟩, false⟩
      [⟨"u", some 10, some ⟨200, "x"⟩⟩] 99 "u").1 .commitErr rfl
  · exact (C4_atomicity ⟨true, .resp ⟨200, "ok"⟩, false⟩
      [⟨"u", some 10, some ⟨200, "x"⟩⟩] 99 "u").2.1 (Or.inr rfl)

/-- Claim C5, as stated, is false on the code: a transport-level fault
raised by the live GET is not caught and not turned into a stored failure
response; this closed run shows the raw fault propagating to the caller
with the store left empty (no failure entry, no 1-hour TTL). -/
theorem C5_counterexample :
    fetch ⟨true, .err, true⟩ [] 7 "http://down.example/" =
      ⟨.error .transportErr, [], 1, 1⟩ := rfl

/-- Claim C5 (amended): a live GET that raises a transport-level fault on
a performed fetch propagates the raw fault to the caller, and the
transaction rolls back leaving the store unchanged; no failure response
is synthesized or stored. -/
theorem C5_transport_fault (env : Env) (store : List Entry) (now : Nat)
    (url : String)
    (hget : env.getResult = .err)
    (hgets : (fetch env store now url).gets = 1) :
    (fetch env store now url).result = .error .transportErr ∧
    (fetch env store now url).store = store := by
  by_cases hread : env.readOk = true
  case neg =>
    rw [fetch_of_read_fail env store now url (by simpa using hread)] at hgets
    simp at hgets
  case pos =>
  match hfind : storeLookup store url with
  | some c =>
    match hexp : c.expiry with
    | none =>
      rw [fetch_of_null_expiry env store now url c hread hfind hexp] at hgets
      simp at hgets
    | some exp =>
      by_cases hfresh : now < exp
      · rw [fetch_of_fresh env store now url c exp hread hfind hexp hfresh]
          at hgets
        split at hgets <;> simp at hgets
      · have hstale : exp ≤ now := by omega
        rw [fetch_of_stale env store now url c exp hread hfind hexp hstale,
            refetch_of_err env store now url c false hget]
        exact ⟨rfl, rfl⟩
  | none =>
    rw [fetch_of_absent env store now url hread hfind,
        refetch_of_err env store now url ⟨url, none, none⟩ true hget]
    exact ⟨rfl, rfl⟩

theorem C5_transport_fault_witness :
    (fetch ⟨true, .err, true⟩ [⟨"u", some 10, some ⟨200, "x"⟩⟩] 99
        "u").result = .error .transportErr ∧
    (fetch ⟨true, .err, true⟩ [⟨"u", some 10, some ⟨200, "x"⟩⟩] 99
        "u").store = [⟨"u", some 10, some ⟨200, "x"⟩⟩] :=
  C5_transport_fault ⟨true, .err, true⟩ [⟨"u", some 10, some ⟨200, "x"⟩⟩]
    99 "u" rfl rfl

/-- Claim C6 (first fetch): for a URL with no stored entry, a completing
`fetch` performs exactly one live GET and the store goes from zero entries
for that URL to exactly one. -/
theorem C6_first_fetch (env : Env) (store : List Entry) (now : Nat)
    (url : String) (resp : Response)
    (hread : env.readOk = true)
    (hfind : storeLookup store url = none)
    (hget : env.getResult = .resp resp)
    (hcommit : env.commitOk = true) :
    (fetch env store now url).gets = 1 ∧
    store.countP (fun e => e.url == url) = 0 ∧
    (fetch env store now url).store.countP (fun e => e.url == url) = 1 := by
  rw [fetch_of_absent env store now url hread hfind,
      refetch_of_resp env store now url ⟨url, none, none⟩ true resp hget,
      if_pos hcommit]
  have hzero : store.countP (fun e => e.url == url) = 0 := by
    rw [List.countP_eq_zero]
    intro a ha
    exact List.find?_eq_none.mp hfind a ha
  refine ⟨rfl, hzero, ?_⟩
  have hp : ((applyPolicy now ⟨url, none, none⟩ resp).url == url) = true := by
    simp [applyPolicy_url]
  simp [List.countP_append, List.countP_cons, hp, hzero]

theorem C6_witness :
    (fetch ⟨true, .resp ⟨200, "ok"⟩, true⟩ [] 5 "u").gets = 1 ∧
    List.countP (fun e => e.url == "u") ([] : List Entry) = 0 ∧
    (fetch ⟨true, .resp ⟨200, "ok"⟩, true⟩ [] 5 "u").store.countP
      (fun e => e.url == "u") = 1 :=
  C6_first_fetch ⟨true, .resp ⟨200, "ok"⟩, true⟩ [] 5 "u" ⟨200, "ok"⟩
    rfl rfl rfl rfl

/-- Claim C7 (return value equals the persisted entry's response): any
`fetch` that completes without exception returns exactly the response
field of the stored entry for that URL after the policy was applied; in
particular, when a stale entry holds a prior 2xx response and the live GET
returns non-2xx, the preserved old 2xx response is returned, not the new
failure response. -/
theorem C7_return_is_stored (env : Env) (store : List Entry) (now : Nat)
    (url : String) :
    (∀ r, (fetch env store now url).result = .ok r →
        ∃ c', storeLookup (fetch env store now url).store url = some c' ∧
          c'.response = r) ∧
    (∀ (c : Entry) (old resp : Response) (exp : Nat),
        storeLookup store url = some c → c.response = some old →
        old.status_code / 100 = 2 → c.expiry = some exp → exp ≤ now →
        env.readOk = true → env.getResult = .resp resp →
        resp.status_code / 100 ≠ 2 → env.commitOk = true →
        (fetch env store now url).result = .ok (some old)) := by
  constructor
  · intro r hr
    by_cases hread : env.readOk = true
    case neg =>
      rw [fetch_of_read_fail env store now url (by simpa using hread)] at hr ⊢
      exact absurd hr (by simp)
    case pos =>
    match hfind : storeLookup store url with
    | some c =>
      match hexp : c.expiry with
      | none =>
        rw [fetch_of_null_expiry env store now url c hread hfind hexp] at hr ⊢
        exact absurd hr (by simp)
      | some exp =>
        by_cases hfresh : now < exp
        · rw [fetch_of_fresh env store now url c exp hread hfind hexp hfresh]
            at hr ⊢
          by_cases hc : env.commitOk = true
          · rw [if_pos hc] at hr ⊢
            have : c.response = r := by simpa using hr
            exact ⟨c, hfind, this⟩
          · rw [if_neg hc] at hr
            exact absurd hr (by simp)
        · have hstale : exp ≤ now := by omega
          rw [fetch_of_stale env store now url c exp hread hfind hexp hstale]
            at hr ⊢
          cases hg : env.getResult with
          | err =>
            rw [refetch_of_err env store now url c false hg] at hr
            exact absurd hr (by simp)
          | resp rsp =>
            rw [refetch_of_resp env store now url c false rsp hg] at hr ⊢
            by_cases hc : env.commitOk = true
            · rw [if_pos hc] at hr ⊢
              have : (applyPolicy now c rsp).response = r := by simpa using hr
              refine ⟨applyPolicy now c rsp, ?_, this⟩
              simp only [Bool.false_eq_true, if_false]
              exact storeLookup_storeReplace store url _
                ((applyPolicy_url now c rsp).trans
                  (storeLookup_url store url c hfind))
                (by rw [hfind]; rfl)
            · rw [if_neg hc] at hr
              exact absurd hr (by simp)
    | none =>
      rw [fetch_of_absent env store now url hread hfind] at hr ⊢
      cases hg : env.getResult with
      | err =>
        rw [refetch_of_err env store now url ⟨url, none, none⟩ true hg] at hr
        exact absurd hr (by simp)
      | resp rsp =>
        rw [refetch_of_resp env store now url ⟨url, none, none⟩ true rsp hg]
          at hr ⊢
        by_cases hc : env.commitOk = true
        · rw [if_pos hc] at hr ⊢
          have : (applyPolicy now ⟨url, none, none⟩ rsp).response = r := by
            simpa using hr
          refine ⟨applyPolicy now ⟨url, none, none⟩ rsp, ?_, this⟩
          simp only [if_pos rfl, if_true]
          exact storeLookup_append_of_none store url _ hfind
            ((applyPolicy_url _ _ _).trans rfl)
        · rw [if_neg hc] at hr
          exact absurd hr (by simp)
  · intro c old resp exp hfind hresp hgood hexp hstale hread hget hfail hcommit
    rw [fetch_of_stale env store now url c exp hread hfind hexp hstale,
        refetch_of_resp env store now url c false resp hget, if_pos hcommit]
    have : (applyPolicy now c resp).response = some old :=
      applyPolicy_keeps_good now c old resp hresp hgood hfail
    simpa using this

theorem C7_witness :
    (∃ c', storeLookup
        (fetch ⟨true, .resp ⟨503, "bad"⟩, true⟩
          [⟨"u", some 10, some ⟨200, "x"⟩⟩] 99 "u").store "u" = some c' ∧
      c'.response = some ⟨200, "x"⟩) ∧
    (fetch ⟨true, .resp ⟨503, "bad"⟩, true⟩
        [⟨"u", some 10, some ⟨200, "x"⟩⟩] 99 "u").result =
      .ok (some ⟨200, "x"⟩) := by
  constructor
  · exact (C7_return_is_stored ⟨true, .resp ⟨503, "bad"⟩, true⟩
      [⟨"u", some 10, some ⟨200, "x"⟩⟩] 99 "u").1 (some ⟨200, "x"⟩) rfl
  · exact (C7_return_is_stored ⟨true, .resp ⟨503, "bad"⟩, true⟩
      [⟨"u", some 10, some ⟨200, "x"⟩⟩] 99 "u").2
      ⟨"u", some 10, some ⟨200, "x"⟩⟩ ⟨200, "x"⟩ ⟨503, "bad"⟩ 10
      rfl rfl (by decide) rfl (by omega) rfl rfl (by decide) rfl

/-- Claim C8 (missing URL parameter): a request without the `url` query
parameter yields the `missing_url` 400 error, with no store interaction
(zero reads, store unchanged) and no transport interaction (zero GETs). -/
theorem C8_missing_url (env : Env) (cfg : Config) (store : List Entry)
    (now : Nat) :
    fetch_context env cfg store now none = ⟨.missing_url, store, 0, 0⟩ :=
  rfl

/-- Claim C10 (empty URL parameter): a request whose `url` parameter is
present but empty is handled identically to an absent parameter — the
falsiness check yields the same `missing_url` 400 error with no store or
transport interaction. -/
theorem C10_empty_url (env : Env) (cfg : Config) (store : List Entry)
    (now : Nat) :
    fetch_context env cfg store now (some "") =
      ⟨.missing_url, store, 0, 0⟩ ∧
    fetch_context env cfg store now (some "") =
      fetch_context env cfg store now none :=
  ⟨rfl, rfl⟩

/-- Claim C9 (proxy URL rewriter): `maybe_proxy` is a pure stateless
function from URL to URL; it returns its input unchanged whenever the URL
does not match the third-party status-permalink pattern or the proxy
credentials are not both configured, and rewrites a matching URL into the
credential-carrying proxy endpoint exactly when both are present. -/
theorem C9_proxy_rewrite (cfg : Config) (url : String) :
    ((twitterMatch url = none ∨ cfg.twitter_au_key = none ∨
        cfg.twitter_au_secret = none) → maybe_proxy cfg url = url) ∧
    (∀ key secret g2, cfg.twitter_au_key = some key →
        cfg.twitter_au_secret = some secret → twitterMatch url = some g2 →
        maybe_proxy cfg url =
          "https://twitter-activitystreams.appspot.com/@me/@all/@app/"
            ++ g2 ++ "?"
            ++ urlencode [("format", "html"), ("access_token_key", key),
                          ("access_token_secret", secret)]) := by
  constructor
  · intro h
    cases hk : cfg.twitter_au_key with
    | none =>
      cases hs : cfg.twitter_au_secret with
      | none => unfold maybe_proxy; rw [hk, hs]
      | some sec => unfold maybe_proxy; rw [hk, hs]
    | some k =>
      cases hs : cfg.twitter_au_secret with
      | none => unfold maybe_proxy; rw [hk, hs]
      | some sec =>
        have hm : twitterMatch url = none := by
          rcases h with h | h | h
          · exact h
          · rw [hk] at h; cases h
          · rw [hs] at h; cases h
        unfold maybe_proxy
        rw [hk, hs, hm]
  · intro key secret g2 hk hs hm
    unfold maybe_proxy
    rw [hk, hs, hm]

theorem C9_witness :
    maybe_proxy ⟨some "K", none⟩ "https://twitter.com/a/status/1" =
      "https://twitter.com/a/status/1" ∧
    maybe_proxy ⟨some "K", some "S"⟩ "https://example.com/x" =
      "https://example.com/x" ∧
    maybe_proxy ⟨some "K", some "S"⟩ "https://twitter.com/a/status/1" =
      "https://twitter-activitystreams.appspot.com/@me/@all/@app/"
        ++ "1" ++ "?"
        ++ urlencode [("format", "html"), ("access_token_key", "K"),
                      ("access_token_secret", "S")] := by
  refine ⟨?_, ?_, ?_⟩
  · exact (C9_proxy_rewrite ⟨some "K", none⟩
      "https://twitter.com/a/status/1").1 (Or.inr (Or.inr rfl))
  · exact (C9_proxy_rewrite ⟨some "K", some "S"⟩
      "https://example.com/x").1 (Or.inl (by decide))
  · exact (C9_proxy_rewrite ⟨some "K", some "S"⟩
      "https://twitter.com/a/status/1").2 "K" "S" "1" rfl rfl (by decide)
